import Mathlib

/-
Verification of NaishaShetty/Trading-Bot.

Shallow embedding of the two source files:
  * trading_bot.py    — CLI validators, FuturesBot.market / limit / twap, argparse wiring;
  * trading_bot_ui.py — GUI decimal parsing and lot/tick adjustment helpers.

Python `Decimal` values are modelled as exact rationals (ℚ).  Decimal arithmetic in the
default context rounds every operation to 28 significant digits with round-half-even;
`decDiv` below implements that rounding for division, which is the only Decimal
operation the bot performs on computed values.  The external exchange SDK
(`binance.client.Client`) is modelled by an environment `SdkEnv` giving, for each call
index, either the acknowledgment payload the call returns or the description of the
exception it raises.
-/

/-- Python `str.upper` restricted to the character model (`Char.toUpper` per character),
as used by `symbol.upper()` and `s.strip().upper()` in the source. -/
def pyUpper (s : String) : String := ⟨s.data.map Char.toUpper⟩

/-- Python `str.strip()`: remove leading and trailing whitespace. -/
def pyStrip (s : String) : String :=
  ⟨((s.data.dropWhile Char.isWhitespace).reverse.dropWhile Char.isWhitespace).reverse⟩

/-- Number of decimal digits of `n` minus one (⌊log₁₀ n⌋ for `n ≥ 1`), fuel-based so the
kernel can evaluate it.  Called with `fuel = n`, which always suffices. -/
def log10F : ℕ → ℕ → ℕ
  | 0, _ => 0
  | fuel + 1, n => if n < 10 then 0 else log10F fuel (n / 10) + 1

/-- Powers `10 ^ n` on ℕ by structural recursion. -/
def pow10N : ℕ → ℕ
  | 0 => 1
  | n + 1 => 10 * pow10N n

/-- Powers `10 ^ e` on ℚ for an integer exponent. -/
def pow10Q (e : ℤ) : ℚ :=
  if 0 ≤ e then (pow10N e.toNat : ℚ) else 1 / (pow10N (-e).toNat : ℚ)

/-- Floor of a nonnegative rational, computed with ℕ division (on negative inputs this
is minus the floor of the absolute value, i.e. truncation; it is only ever applied to
nonnegative values below). -/
def qNatFloor (x : ℚ) : ℤ := ((x.num.toNat / x.den : ℕ) : ℤ)

/-- Round a nonnegative rational to the nearest integer, ties to even
(`ROUND_HALF_EVEN`, the default Decimal context rounding). -/
def roundHE (x : ℚ) : ℤ :=
  let f := qNatFloor x
  let r := x - (f : ℚ)
  if r < 1 / 2 then f
  else if 1 / 2 < r then f + 1
  else if f % 2 = 0 then f else f + 1

/-- Computes ⌊log₁₀ x⌋ for a positive rational: the unique `e` with `10 ^ e ≤ x < 10 ^ (e + 1)`. -/
def qLog10 (x : ℚ) : ℤ :=
  let c : ℤ := (log10F x.num.natAbs x.num.natAbs : ℤ) - (log10F x.den x.den : ℤ)
  if pow10Q (c + 1) ≤ x then c + 1 else if pow10Q c ≤ x then c else c - 1

/-- Round a positive rational to `prec` significant decimal digits, half-even. -/
def decRoundPos (prec : ℕ) (x : ℚ) : ℚ :=
  let shift : ℤ := (prec : ℤ) - 1 - qLog10 x
  if 0 ≤ shift then
    let m : ℚ := (pow10N shift.toNat : ℚ)
    (roundHE (x * m) : ℚ) / m
  else
    let m : ℚ := (pow10N (-shift).toNat : ℚ)
    (roundHE (x / m) : ℚ) * m

/-- Round a rational to `prec` significant decimal digits, half-even, sign-magnitude
(decimal arithmetic rounds the magnitude and carries the sign). -/
def decRound (prec : ℕ) (x : ℚ) : ℚ :=
  if x = 0 then 0 else if x < 0 then -decRoundPos prec (-x) else decRoundPos prec x

/-- Division of Python `Decimal` values in the default context: the exact quotient
rounded to 28 significant digits, round-half-even. -/
def decDiv (a b : ℚ) : ℚ := decRound 28 (a / b)

set_option maxRecDepth 100000

/-! ## CLI validators (trading_bot.py, lines 32-45)

The external `Decimal` constructor is a library call; it is modelled by its outcome:
`none` when `Decimal(value)` raises `InvalidOperation`, `some d` when it yields the
decimal value `d`.  `argparse.ArgumentTypeError` is the ValidationError of the spec and
is modelled as the `Except.error` variant carrying the message. -/

/-- CLI `parse_decimal` (trading_bot.py 32-39): reject unparseable input, reject values
`<= 0`, otherwise return the parsed decimal. -/
def parse_decimal (parsed : Option ℚ) : Except String ℚ :=
  match parsed with
  | none => .error "Invalid number"
  | some d => if d ≤ 0 then .error "Value must be positive" else .ok d

/-- CLI `validate_side` (trading_bot.py 41-45): strip, uppercase, require membership in
`("BUY", "SELL")`, return the normalized form. -/
def validate_side (s : String) : Except String String :=
  let s2 := pyUpper (pyStrip s)
  if s2 = "BUY" ∨ s2 = "SELL" then .ok s2 else .error "Side must be BUY or SELL"

/-- argparse `--parts` on the `twap` subcommand (trading_bot.py 122) uses the plain
`int` conversion: every integer, including `0`, is accepted without a range check. -/
def cliParseParts (n : ℤ) : Except String ℤ := .ok n

/-! ## Exchange gateway and TWAP scheduler (trading_bot.py, lines 48-92)

`FuturesBot.market` / `limit` call `client.futures_create_order`; the external client
is modelled by an environment assigning to each call index (0, 1, 2, … in the order
the calls are made) either the acknowledgment payload the call returns or the message
of the exception it raises.  A `GState` threads the observable effects: the number of
SDK calls made, the parameters of each call, and each `time.sleep` (recorded as the
number of calls made before the pause, paired with its duration). -/

/-- Opaque exchange acknowledgment payload (`resp` in the source). -/
abbrev Ack := String

/-- The two variants of an order result: the exchange acknowledgment, or the
`{"error": str(e)}` dictionary built in the `except` branch. -/
inductive OrderResult where
  | ack (payload : Ack)
  | err (msg : String)
deriving DecidableEq

/-- Parameters of one `futures_create_order` call. -/
structure SdkCall where
  otype : String
  symbol : String
  side : String
  qty : ℚ
  price : Option ℚ
deriving DecidableEq

/-- Observable effect trace: `n` SDK calls made so far, their parameters in order, and
the `time.sleep` pauses (calls made before the pause, pause duration). -/
structure GState where
  n : ℕ
  calls : List SdkCall
  sleeps : List (ℕ × ℕ)
deriving DecidableEq

/-- Outcome of each successive SDK call: `Except.ok` an acknowledgment, or
`Except.error` the description of the raised exception. -/
abbrev SdkEnv := ℕ → Except String Ack

def initState : GState := ⟨0, [], []⟩

/-- The `try`/`except Exception` boundary of `market` and `limit`: a returned response
becomes the acknowledgment variant, a raised exception becomes the error variant. -/
def orderResultOf : Except String Ack → OrderResult
  | .ok a => .ack a
  | .error e => .err e

/-- Method `FuturesBot.market` (trading_bot.py 54-66): one MARKET `futures_create_order` call
with the uppercased symbol, any exception caught and converted to the error variant. -/
def market (env : SdkEnv) (symbol side : String) (qty : ℚ) (s : GState) :
    OrderResult × GState :=
  (orderResultOf (env s.n),
   ⟨s.n + 1, s.calls ++ [⟨"MARKET", pyUpper symbol, side, qty, none⟩], s.sleeps⟩)

/-- Method `FuturesBot.limit` (trading_bot.py 68-82): one LIMIT GTC `futures_create_order`
call, any exception caught and converted to the error variant. -/
def limit (env : SdkEnv) (symbol side : String) (qty price : ℚ) (s : GState) :
    OrderResult × GState :=
  (orderResultOf (env s.n),
   ⟨s.n + 1, s.calls ++ [⟨"LIMIT", pyUpper symbol, side, qty, some price⟩], s.sleeps⟩)

/-- Python `Decimal` division by an `int` of value zero raises `DivisionByZero`; nothing in
`twap` or `main` catches it. -/
inductive PyError where
  | divisionByZero
deriving DecidableEq

/-- The dictionary `{"twap_results": results}` returned by `FuturesBot.twap`. -/
structure TwapOutcome where
  twap_results : List OrderResult
deriving DecidableEq

/-- The `for i in range(parts)` loop of `twap` (trading_bot.py 87-91): call `market`
with the piece quantity, append the result, and pause for `interval` when
`i < parts - 1`. -/
def twapLoop (env : SdkEnv) (symbol side : String) (piece : ℚ) (parts : ℤ)
    (interval : ℕ) : List ℕ → GState → List OrderResult × GState
  | [], s => ([], s)
  | i :: rest, s =>
    let p1 := market env symbol side piece s
    let s2 := if (i : ℤ) < parts - 1 then
        ⟨p1.2.n, p1.2.calls, p1.2.sleeps ++ [(p1.2.n, interval)]⟩ else p1.2
    let pr := twapLoop env symbol side piece parts interval rest s2
    (p1.1 :: pr.1, pr.2)

/-- Method `FuturesBot.twap` (trading_bot.py 84-92): `piece = total_qty / parts` (Decimal
division, raising `DivisionByZero` when `parts == 0`), then the submission loop over
`range(parts)` (empty when `parts` is negative), wrapping the collected results. -/
def twap (env : SdkEnv) (symbol side : String) (total_qty : ℚ) (parts : ℤ)
    (interval : ℕ) (s : GState) : Except PyError TwapOutcome × GState :=
  if parts = 0 then (.error .divisionByZero, s)
  else
    let piece := decDiv total_qty (parts : ℚ)
    let pr := twapLoop env symbol side piece parts interval (List.range parts.toNat) s
    (.ok ⟨pr.1⟩, pr.2)

/-- A `twap` run started with no prior SDK calls, as in the CLI. -/
def twapRun (env : SdkEnv) (symbol side : String) (total_qty : ℚ) (parts : ℤ)
    (interval : ℕ) : Except PyError TwapOutcome × GState :=
  twap env symbol side total_qty parts interval initState

/-! ## GUI helpers (trading_bot_ui.py, lines 30-50)

The GUI `parse_decimal` performs no positivity check; `adjust_quantity` and
`adjust_price` use Decimal `//` (integer division, truncating toward zero) against the
instrument's step/tick size.  The `stepSize` / `tickSize` entries of the exchange
filter dictionaries are modelled directly by their decimal values. -/

/-- GUI `parse_decimal` (trading_bot_ui.py 30-34): return `Decimal(value)`, converting
`InvalidOperation` to `ValueError("Invalid number")`; no sign check. -/
def gui_parse_decimal (parsed : Option ℚ) : Except String ℚ :=
  match parsed with
  | none => .error "Invalid number"
  | some d => .ok d

/-- Decimal `//`: integer quotient truncated toward zero (sign-magnitude). -/
def qTrunc (x : ℚ) : ℤ := if x < 0 then -qNatFloor (-x) else qNatFloor x

/-- GUI `adjust_quantity` (trading_bot_ui.py 44-46): `(qty // step) * step`. -/
def adjust_quantity (qty step : ℚ) : ℚ := (qTrunc (qty / step) : ℚ) * step

/-- GUI `adjust_price` (trading_bot_ui.py 48-50): `(price // tick) * tick`. -/
def adjust_price (price tick : ℚ) : ℚ := (qTrunc (price / tick) : ℚ) * tick

/-! ## Structural facts about the TWAP loop -/

/-- The call record issued by every iteration of the twap loop. -/
def mcall (symbol side : String) (qty : ℚ) : SdkCall :=
  ⟨"MARKET", pyUpper symbol, side, qty, none⟩

/-- The predicate of the `if i < parts - 1` pause guard, as a Boolean on loop indices. -/
def pauseGuard (parts : ℤ) (i : ℕ) : Bool := decide ((i : ℤ) < parts - 1)

theorem twapLoop_range' (env : SdkEnv) (symbol side : String) (piece : ℚ) (parts : ℤ)
    (interval : ℕ) :
    ∀ (k a : ℕ) (s : GState), s.n = a →
      twapLoop env symbol side piece parts interval (List.range' a k) s =
        ((List.range' a k).map (fun i => orderResultOf (env i)),
         ⟨a + k,
          s.calls ++ List.replicate k (mcall symbol side piece),
          s.sleeps ++ ((List.range' a k).filter (pauseGuard parts)).map
              (fun i => (i + 1, interval))⟩) := by
  intro k
  induction k with
  | zero =>
    intro a s hs
    obtain ⟨n, calls, sleeps⟩ := s
    obtain rfl : n = a := hs
    simp [twapLoop]
  | succ k ih =>
    intro a s hs
    rw [List.range'_succ]
    by_cases hc : (a : ℤ) < parts - 1
    · simp only [twapLoop, market, hs, if_pos hc]
      rw [ih (a + 1) _ rfl]
      refine congrArg₂ Prod.mk (by simp) ?_
      simp only [GState.mk.injEq]
      refine ⟨by omega, by simp [mcall, List.replicate_succ], ?_⟩
      simp [List.filter_cons, pauseGuard, hc]
    · simp only [twapLoop, market, hs, if_neg hc]
      rw [ih (a + 1) _ rfl]
      refine congrArg₂ Prod.mk (by simp) ?_
      simp only [GState.mk.injEq]
      refine ⟨by omega, by simp [mcall, List.replicate_succ], ?_⟩
      simp [List.filter_cons, pauseGuard, hc]

theorem filter_range_pauseGuard (N : ℕ) :
    (List.range N).filter (pauseGuard (N : ℤ)) = List.range (N - 1) := by
  cases N with
  | zero => simp
  | succ m =>
    rw [List.range_succ, List.filter_append]
    have h1 : (List.range m).filter (pauseGuard ((m + 1 : ℕ) : ℤ)) = List.range m := by
      apply List.filter_eq_self.mpr
      intro a ha
      have := List.mem_range.mp ha
      simp only [pauseGuard, decide_eq_true_eq]
      omega
    have h2 : [m].filter (pauseGuard ((m + 1 : ℕ) : ℤ)) = [] := by
      simp only [pauseGuard, List.filter_cons, List.filter_nil, decide_eq_true_eq]
      rw [if_neg (by omega)]
    rw [h1, h2]
    simp

/-- Full characterization of a fresh `twap` run with at least one part: the outcome,
the SDK calls made, and the pauses taken. -/
theorem twapRun_spec (env : SdkEnv) (symbol side : String) (total : ℚ) (interval : ℕ)
    (parts : ℤ) (h : 1 ≤ parts) :
    twapRun env symbol side total parts interval =
      (.ok ⟨(List.range parts.toNat).map (fun i => orderResultOf (env i))⟩,
       ⟨parts.toNat,
        List.replicate parts.toNat (mcall symbol side (decDiv total (parts : ℚ))),
        (List.range (parts.toNat - 1)).map (fun i => (i + 1, interval))⟩) := by
  obtain ⟨N, rfl⟩ : ∃ n : ℕ, parts = (n : ℤ) :=
    ⟨parts.toNat, (Int.toNat_of_nonneg (by omega)).symm⟩
  have hne : (N : ℤ) ≠ 0 := by exact_mod_cast (by omega : ¬ ((N : ℤ) = 0))
  unfold twapRun twap
  rw [if_neg hne]
  simp only [Int.toNat_natCast]
  rw [List.range_eq_range',
    twapLoop_range' env symbol side _ (N : ℤ) interval N 0 initState rfl,
    ← List.range_eq_range', filter_range_pauseGuard]
  simp [initState]

/-! ## Floor properties of the GUI adjustment helpers -/

theorem qNatFloor_le (x : ℚ) (hx : 0 ≤ x) : (qNatFloor x : ℚ) ≤ x := by
  have hden : (0 : ℚ) < (x.den : ℚ) := by exact_mod_cast x.den_pos
  have hnum : 0 ≤ x.num := Rat.num_nonneg.mpr hx
  have hn : ((x.num.toNat : ℤ) : ℚ) = (x.num : ℚ) := by
    exact_mod_cast congrArg (fun z : ℤ => (z : ℚ)) (Int.toNat_of_nonneg hnum)
  have key : ((x.num.toNat / x.den : ℕ) : ℚ) * (x.den : ℚ) ≤ (x.num.toNat : ℚ) := by
    exact_mod_cast Nat.div_mul_le_self x.num.toNat x.den
  have h1 : ((x.num.toNat / x.den : ℕ) : ℚ) ≤ (x.num.toNat : ℚ) / (x.den : ℚ) :=
    (le_div_iff₀ hden).mpr key
  have h2 : (x.num.toNat : ℚ) / (x.den : ℚ) = x := by
    rw [show ((x.num.toNat : ℕ) : ℚ) = (x.num : ℚ) from by exact_mod_cast hn]
    exact Rat.num_div_den x
  rw [h2] at h1
  have hq : (qNatFloor x : ℚ) = ((x.num.toNat / x.den : ℕ) : ℚ) :=
    Int.cast_natCast _
  rw [hq]
  exact h1

theorem lt_qNatFloor_add_one (x : ℚ) (hx : 0 ≤ x) : x < qNatFloor x + 1 := by
  have hdpos : 0 < x.den := x.den_pos
  have hden : (0 : ℚ) < (x.den : ℚ) := by exact_mod_cast hdpos
  have hnum : 0 ≤ x.num := Rat.num_nonneg.mpr hx
  have hn : ((x.num.toNat : ℕ) : ℚ) = (x.num : ℚ) := by
    exact_mod_cast congrArg (fun z : ℤ => (z : ℚ)) (Int.toNat_of_nonneg hnum)
  have keyN : x.num.toNat < (x.num.toNat / x.den + 1) * x.den := by
    calc x.num.toNat = x.den * (x.num.toNat / x.den) + x.num.toNat % x.den :=
          (Nat.div_add_mod _ _).symm
      _ < x.den * (x.num.toNat / x.den) + x.den :=
          Nat.add_lt_add_left (Nat.mod_lt _ hdpos) _
      _ = (x.num.toNat / x.den + 1) * x.den := by ring
  have key : (x.num.toNat : ℚ) < (((x.num.toNat / x.den : ℕ) : ℚ) + 1) * (x.den : ℚ) := by
    exact_mod_cast keyN
  have h1 : (x.num.toNat : ℚ) / (x.den : ℚ) < ((x.num.toNat / x.den : ℕ) : ℚ) + 1 :=
    (div_lt_iff₀ hden).mpr key
  have h2 : (x.num.toNat : ℚ) / (x.den : ℚ) = x := by
    rw [hn]; exact Rat.num_div_den x
  rw [h2] at h1
  have hq : (qNatFloor x : ℚ) = ((x.num.toNat / x.den : ℕ) : ℚ) :=
    Int.cast_natCast _
  rw [hq]
  exact h1

/-- Value `(v // s) * s` for nonnegative `v` and positive `s`: at most `v`, and at least any
integer multiple of `s` that is at most `v`. -/
theorem truncMul_spec (v s : ℚ) (hv : 0 ≤ v) (hs : 0 < s) :
    (qTrunc (v / s) : ℚ) * s ≤ v ∧
    (∀ m : ℤ, (m : ℚ) * s ≤ v → (m : ℚ) * s ≤ (qTrunc (v / s) : ℚ) * s) := by
  have hvs : 0 ≤ v / s := div_nonneg hv hs.le
  have htr : qTrunc (v / s) = qNatFloor (v / s) := if_neg (not_lt.mpr hvs)
  rw [htr]
  constructor
  · calc (qNatFloor (v / s) : ℚ) * s ≤ (v / s) * s :=
          mul_le_mul_of_nonneg_right (qNatFloor_le (v / s) hvs) hs.le
      _ = v := div_mul_cancel₀ v hs.ne'
  · intro m hm
    have hm2 : (m : ℚ) ≤ v / s := (le_div_iff₀ hs).mpr hm
    have hlt : (m : ℚ) < (qNatFloor (v / s) : ℚ) + 1 :=
      lt_of_le_of_lt hm2 (lt_qNatFloor_add_one (v / s) hvs)
    have hml : m ≤ qNatFloor (v / s) := by
      have : m < qNatFloor (v / s) + 1 := by exact_mod_cast hlt
      omega
    exact mul_le_mul_of_nonneg_right (by exact_mod_cast hml) hs.le

/-! ## Concrete environments used by the witnesses -/

/-- A stub exchange on which every call succeeds. -/
def envOk : SdkEnv := fun _ => .ok "FILLED"

/-- A stub exchange that raises on the second call (index 1) and succeeds otherwise. -/
def envFail2 : SdkEnv := fun n => if n = 1 then .error "boom" else .ok "FILLED"

/-! ## Claims -/

/-- Claim C1: for every TWAP plan with `parts = N` (`N ≥ 1`) and every environment of
per-step outcomes, `twap` makes exactly `N` market-order SDK calls and returns an
outcome whose `twap_results` sequence has exactly `N` entries, the `i`-th entry being
the result of the `i`-th submission. -/
theorem twap_parts_invocations (env : SdkEnv) (symbol side : String) (total : ℚ)
    (interval : ℕ) (parts : ℤ) (h : 1 ≤ parts) :
    ∃ rs : List OrderResult,
      (twapRun env symbol side total parts interval).1 = .ok ⟨rs⟩ ∧
      rs.length = parts.toNat ∧
      (∀ i : ℕ, i < parts.toNat → rs[i]? = some (orderResultOf (env i))) ∧
      (twapRun env symbol side total parts interval).2.calls.length = parts.toNat ∧
      (∀ c ∈ (twapRun env symbol side total parts interval).2.calls,
        c.otype = "MARKET") := by
  rw [twapRun_spec env symbol side total interval parts h]
  refine ⟨_, rfl, by simp, ?_, by simp, ?_⟩
  · intro i hi
    simp [List.getElem?_range hi]
  · intro c hc
    have hc2 := List.eq_of_mem_replicate hc
    subst hc2
    rfl

/-- Claim C1 witness: the 3-part run against an all-succeeding stub. -/
theorem twap_parts_invocations_witness :
    ∃ rs : List OrderResult,
      (twapRun envOk "BTCUSDT" "BUY" ((9 : ℚ) / 1000) 3 0).1 = .ok ⟨rs⟩ ∧
      rs.length = 3 ∧
      (twapRun envOk "BTCUSDT" "BUY" ((9 : ℚ) / 1000) 3 0).2.calls.length = 3 := by
  obtain ⟨rs, h1, h2, h3, h4, h5⟩ :=
    twap_parts_invocations envOk "BTCUSDT" "BUY" ((9 : ℚ) / 1000) 0 3 (by omega)
  exact ⟨rs, h1, by simpa using h2, by simpa using h4⟩

/-- Claim C2: in a 3-part run where the gateway raises on the second step, the
outcome still has three entries, the middle one the error variant and the outer two
their own outcomes, with exactly three SDK calls made (one attempt per step). -/
theorem twap_step_failure_isolated (env : SdkEnv) (symbol side : String) (total : ℚ)
    (interval : ℕ) (e : String) (h : env 1 = .error e) :
    (twapRun env symbol side total 3 interval).1 =
        .ok ⟨[orderResultOf (env 0), .err e, orderResultOf (env 2)]⟩ ∧
    (twapRun env symbol side total 3 interval).2.calls.length = 3 := by
  rw [twapRun_spec env symbol side total interval 3 (by omega)]
  constructor
  · have hr : List.range (3 : ℤ).toNat = [0, 1, 2] := rfl
    rw [hr]
    simp [h, orderResultOf]
  · simp

/-- Claim C2 witness: the stub that raises `"boom"` on the second call. -/
theorem twap_step_failure_isolated_witness :
    (twapRun envFail2 "BTCUSDT" "BUY" ((9 : ℚ) / 1000) 3 0).1 =
        .ok ⟨[.ack "FILLED", .err "boom", .ack "FILLED"]⟩ ∧
    (twapRun envFail2 "BTCUSDT" "BUY" ((9 : ℚ) / 1000) 3 0).2.calls.length = 3 := by
  have h := twap_step_failure_isolated envFail2 "BTCUSDT" "BUY" ((9 : ℚ) / 1000) 0
    "boom" rfl
  exact ⟨by simpa [envFail2, orderResultOf] using h.1, h.2⟩

/-- Claim C3: `market` and `limit` always return an `OrderResult` equal to the image
of the SDK call's outcome: an acknowledgment becomes the success variant and a raised
exception becomes the error variant carrying the exception's description; no exception
propagates. -/
theorem gateway_never_raises (env : SdkEnv) (symbol side : String) (qty price : ℚ)
    (s : GState) :
    (market env symbol side qty s).1 = orderResultOf (env s.n) ∧
    (limit env symbol side qty price s).1 = orderResultOf (env s.n) ∧
    (∀ a, env s.n = .ok a → (market env symbol side qty s).1 = .ack a) ∧
    (∀ e, env s.n = .error e → (market env symbol side qty s).1 = .err e) ∧
    (∀ a, env s.n = .ok a → (limit env symbol side qty price s).1 = .ack a) ∧
    (∀ e, env s.n = .error e → (limit env symbol side qty price s).1 = .err e) := by
  refine ⟨rfl, rfl, ?_, ?_, ?_, ?_⟩ <;>
    · intro x hx
      simp [market, limit, hx, orderResultOf]

/-- Claim C3 witness: a succeeding market call and a failing limit call. -/
theorem gateway_never_raises_witness :
    (market envOk "btcusdt" "BUY" ((1 : ℚ) / 100) initState).1 = .ack "FILLED" ∧
    (limit envFail2 "BTCUSDT" "BUY" ((1 : ℚ) / 100) 25000 ⟨1, [], []⟩).1 =
      .err "boom" := by
  refine ⟨(gateway_never_raises envOk "btcusdt" "BUY" ((1 : ℚ) / 100) 0
      initState).2.2.1 "FILLED" rfl,
    (gateway_never_raises envFail2 "BTCUSDT" "BUY" ((1 : ℚ) / 100) 25000
      ⟨1, [], []⟩).2.2.2.2.2 "boom" rfl⟩

/-- Claim C4: every piece submitted by a TWAP run equals `total / parts` under
Decimal division, so the submitted quantities sum to `(total / parts) * parts`; with
`total = 0.009` and `parts = 3` each piece is exactly `0.003`; and there are inputs
(here `total = 1`, `parts = 3`) where `(total / parts) * parts` differs from `total`. -/
theorem twap_piece_quantities (env : SdkEnv) (symbol side : String) (total : ℚ)
    (interval : ℕ) (parts : ℤ) (h : 1 ≤ parts) :
    (∀ c ∈ (twapRun env symbol side total parts interval).2.calls,
        c.qty = decDiv total (parts : ℚ)) ∧
    (((twapRun env symbol side total parts interval).2.calls.map SdkCall.qty).sum =
        decDiv total (parts : ℚ) * (parts : ℚ)) ∧
    decDiv ((9 : ℚ) / 1000) 3 = (3 : ℚ) / 1000 ∧
    (∃ t : ℚ, ∃ p : ℤ, 1 ≤ p ∧ decDiv t (p : ℚ) * (p : ℚ) ≠ t) := by
  rw [twapRun_spec env symbol side total interval parts h]
  refine ⟨?_, ?_, by with_unfolding_all rfl,
    ⟨1, 3, by omega, by with_unfolding_all decide⟩⟩
  · intro c hc
    have hc2 := List.eq_of_mem_replicate hc
    subst hc2
    rfl
  · show ((List.replicate parts.toNat (mcall symbol side _)).map SdkCall.qty).sum = _
    rw [List.map_replicate, List.sum_replicate, nsmul_eq_mul, mul_comm]
    show decDiv total (parts : ℚ) * ((parts.toNat : ℕ) : ℚ) = _
    congr 1
    exact_mod_cast congrArg (fun z : ℤ => (z : ℚ)) (Int.toNat_of_nonneg (by omega))

/-- Claim C4 witness: the `0.009 / 3` scenario, pieces `0.003` summing to `0.009`. -/
theorem twap_piece_quantities_witness :
    (∀ c ∈ (twapRun envOk "BTCUSDT" "BUY" ((9 : ℚ) / 1000) 3 0).2.calls,
        c.qty = (3 : ℚ) / 1000) ∧
    ((twapRun envOk "BTCUSDT" "BUY" ((9 : ℚ) / 1000) 3 0).2.calls.map
        SdkCall.qty).sum = (9 : ℚ) / 1000 := by
  have h := twap_piece_quantities envOk "BTCUSDT" "BUY" ((9 : ℚ) / 1000) 0 3 (by omega)
  have hd : decDiv ((9 : ℚ) / 1000) (((3 : ℤ) : ℚ)) = (3 : ℚ) / 1000 := by
    with_unfolding_all rfl
  constructor
  · intro c hc
    rw [h.1 c hc, hd]
  · rw [h.2.1, hd]
    push_cast
    norm_num

/-- Claim C5: the CLI performs no validation of `--parts` (plain `int` conversion
accepts 0), and a 0-part run reaches the division `total_qty / parts`, which raises
`DivisionByZero` instead of returning an outcome. -/
theorem twap_parts_zero_division (env : SdkEnv) (symbol side : String) (total : ℚ)
    (interval : ℕ) :
    cliParseParts 0 = .ok 0 ∧
    (twapRun env symbol side total 0 interval).1 = .error PyError.divisionByZero :=
  ⟨rfl, rfl⟩

/-- Claim C6: `parse_decimal` fails on unparseable input and on any value `≤ 0`, and
returns any strictly positive parsed value unchanged. -/
theorem parse_decimal_spec (d : ℚ) :
    (∃ e, parse_decimal none = .error e) ∧
    (d ≤ 0 → ∃ e, parse_decimal (some d) = .error e) ∧
    (0 < d → parse_decimal (some d) = .ok d) := by
  refine ⟨⟨"Invalid number", rfl⟩, ?_, ?_⟩
  · intro hd
    exact ⟨"Value must be positive", by simp [parse_decimal, if_pos hd]⟩
  · intro hd
    simp [parse_decimal, if_neg (not_le.mpr hd)]

/-- Claim C6 witness: `-1` is rejected, `1` is returned unchanged. -/
theorem parse_decimal_spec_witness :
    (∃ e, parse_decimal (some (-1)) = .error e) ∧ parse_decimal (some 1) = .ok 1 :=
  ⟨(parse_decimal_spec (-1)).2.1 (by norm_num), (parse_decimal_spec 1).2.2 (by norm_num)⟩

/-- Claim C7 counterexample: `" buy "` does not case-insensitively match `"BUY"` or
`"SELL"` (its uppercase form is `" BUY "`), yet `validate_side` accepts it, because the
source strips surrounding whitespace before matching. -/
theorem validate_side_counterexample :
    validate_side " buy " = .ok "BUY" ∧
    pyUpper " buy " ≠ "BUY" ∧ pyUpper " buy " ≠ "SELL" := by
  refine ⟨by with_unfolding_all rfl, by decide, by decide⟩

/-- Claim C7 amended: for every side string that, after stripping leading and trailing
whitespace, case-insensitively matches BUY or SELL, `validate_side` returns exactly the
uppercase form, and for every other string it fails with a ValidationError. -/
theorem validate_side_amended (s : String) :
    (pyUpper (pyStrip s) = "BUY" → validate_side s = .ok "BUY") ∧
    (pyUpper (pyStrip s) = "SELL" → validate_side s = .ok "SELL") ∧
    (pyUpper (pyStrip s) ≠ "BUY" → pyUpper (pyStrip s) ≠ "SELL" →
      validate_side s = .error "Side must be BUY or SELL") := by
  refine ⟨?_, ?_, ?_⟩
  · intro h
    simp [validate_side, h]
  · intro h
    simp [validate_side, h]
  · intro h1 h2
    simp [validate_side, h1, h2]

/-- Claim C7 witness: the three case variants normalize, a non-side string fails. -/
theorem validate_side_amended_witness :
    validate_side "buy" = .ok "BUY" ∧ validate_side "Buy" = .ok "BUY" ∧
    validate_side "SELL" = .ok "SELL" ∧
    validate_side "hold" = .error "Side must be BUY or SELL" :=
  ⟨(validate_side_amended "buy").1 (by decide),
   (validate_side_amended "Buy").1 (by decide),
   (validate_side_amended "SELL").2.1 (by decide),
   (validate_side_amended "hold").2.2 (by decide) (by decide)⟩

/-- Claim C8: a TWAP run with `parts = N ≥ 1` pauses exactly `N - 1` times, the `j`-th
pause coming after `j` submissions (so one pause between consecutive submissions and
none after the final one), each with the configured duration. -/
theorem twap_pause_count (env : SdkEnv) (symbol side : String) (total : ℚ)
    (interval : ℕ) (parts : ℤ) (h : 1 ≤ parts) :
    (twapRun env symbol side total parts interval).2.sleeps =
        (List.range (parts.toNat - 1)).map (fun i => (i + 1, interval)) ∧
    (twapRun env symbol side total parts interval).2.sleeps.length = parts.toNat - 1 ∧
    (∀ x ∈ (twapRun env symbol side total parts interval).2.sleeps,
        1 ≤ x.1 ∧ x.1 < parts.toNat ∧ x.2 = interval) := by
  rw [twapRun_spec env symbol side total interval parts h]
  refine ⟨rfl, by simp, ?_⟩
  intro x hx
  simp only [List.mem_map, List.mem_range] at hx
  obtain ⟨i, hi, rfl⟩ := hx
  exact ⟨by omega, by omega, rfl⟩

/-- Claim C8 witness: 3 parts pause twice, 1 part pauses zero times. -/
theorem twap_pause_count_witness :
    (twapRun envOk "BTCUSDT" "BUY" ((9 : ℚ) / 1000) 3 5).2.sleeps.length = 2 ∧
    (twapRun envOk "BTCUSDT" "BUY" ((9 : ℚ) / 1000) 1 5).2.sleeps.length = 0 := by
  have h3 := twap_pause_count envOk "BTCUSDT" "BUY" ((9 : ℚ) / 1000) 5 3 (by omega)
  have h1 := twap_pause_count envOk "BTCUSDT" "BUY" ((9 : ℚ) / 1000) 5 1 (by omega)
  exact ⟨by simpa using h3.2.1, by simpa using h1.2.1⟩

/-- Claim C9 counterexample: `adjust_quantity 0.5 0.3` returns `0.3`, but the multiple
`2 * 0.3 = 0.6` is strictly nearer to `0.5` (distance `0.1` against `0.2`), so the
adjustment is not rounding to the nearest multiple of the step. -/
theorem adjust_not_nearest :
    adjust_quantity ((1 : ℚ) / 2) (3 / 10) = 3 / 10 ∧
    ((2 : ℤ) : ℚ) * (3 / 10) - 1 / 2 < 1 / 2 - (3 : ℚ) / 10 ∧
    (1 : ℚ) / 2 < ((2 : ℤ) : ℚ) * (3 / 10) := by
  refine ⟨by with_unfolding_all rfl, by push_cast; norm_num, by push_cast; norm_num⟩

/-- Claim C9 amended: for positive inputs and positive step/tick, `adjust_quantity`
and `adjust_price` round DOWN to an exchange increment: the result is an integer
multiple of the step, at most the input, and at least every other such multiple. -/
theorem adjust_round_down (q s p t : ℚ) (hq : 0 < q) (hs : 0 < s) (hp : 0 < p)
    (ht : 0 < t) :
    (adjust_quantity q s ≤ q ∧ (∃ k : ℤ, adjust_quantity q s = (k : ℚ) * s) ∧
      ∀ m : ℤ, (m : ℚ) * s ≤ q → (m : ℚ) * s ≤ adjust_quantity q s) ∧
    (adjust_price p t ≤ p ∧ (∃ k : ℤ, adjust_price p t = (k : ℚ) * t) ∧
      ∀ m : ℤ, (m : ℚ) * t ≤ p → (m : ℚ) * t ≤ adjust_price p t) := by
  obtain ⟨h1, h2⟩ := truncMul_spec q s hq.le hs
  obtain ⟨h3, h4⟩ := truncMul_spec p t hp.le ht
  exact ⟨⟨h1, ⟨_, rfl⟩, h2⟩, ⟨h3, ⟨_, rfl⟩, h4⟩⟩

/-- Claim C9 amended witness: the `0.5 / 0.3` and `25000 / 0.1` instances. -/
theorem adjust_round_down_witness :
    adjust_quantity ((1 : ℚ) / 2) (3 / 10) ≤ 1 / 2 ∧
    (∃ k : ℤ, adjust_price (25000 : ℚ) (1 / 10) = (k : ℚ) * (1 / 10)) := by
  have h := adjust_round_down ((1 : ℚ) / 2) (3 / 10) 25000 (1 / 10)
    (by norm_num) (by norm_num) (by norm_num) (by norm_num)
  exact ⟨h.1.1, h.2.2.1⟩

/-- Claim C10: the GUI decimal parser errors exactly when the input fails to parse,
and returns any non-positive parsed value unchanged, unlike the CLI validator, which
rejects such values. -/
theorem gui_parse_decimal_spec (p : Option ℚ) (d : ℚ) :
    ((∃ e, gui_parse_decimal p = .error e) ↔ p = none) ∧
    (d ≤ 0 → gui_parse_decimal (some d) = .ok d ∧
      parse_decimal (some d) = .error "Value must be positive") := by
  constructor
  · constructor
    · rintro ⟨e, he⟩
      cases p with
      | none => rfl
      | some d0 => simp [gui_parse_decimal] at he
    · rintro rfl
      exact ⟨"Invalid number", rfl⟩
  · intro hd
    exact ⟨rfl, by simp [parse_decimal, if_pos hd]⟩

/-- Claim C10 witness: `-5` is accepted by the GUI parser, rejected by the CLI one. -/
theorem gui_parse_decimal_spec_witness :
    gui_parse_decimal (some (-5)) = .ok (-5) ∧
    parse_decimal (some (-5)) = .error "Value must be positive" :=
  (gui_parse_decimal_spec (some (-5)) (-5)).2 (by norm_num)
